import Mathlib

/-!
Verification of the claims about `src/budget_automation.py` (digital-budget-automation).

Shallow embedding conventions:
* Spreadsheet / pandas cell values are modelled by `Cell`: `num q` is numeric
  content (Python ints and floats, embedded in `ℚ`), `str s` is non-numeric text
  content, and `na` is a missing value (pandas `NaN`).
* A pandas `DataFrame` is modelled by an ordered list of column labels together
  with a list of rows; each row is an association list from column label to cell.
  A well-formed row only carries keys that are columns of its frame (`wfDF`).
* Python exceptions (KeyError from a missing column, IndexError from list
  indexing, a `Series.sum` over non-numeric content not producing a number)
  are modelled by `Option`/`none` results.
* In-place mutation of the DataFrame of the caller (`df[col] = 0`) is modelled by
  explicit state passing: the mutating function returns the updated frame,
  and the model of the data flow of `main` threads that frame to later stages.
-/

namespace BudgetAutomation

inductive Cell where
  | num (q : ℚ)
  | str (s : String)
  | na
deriving DecidableEq

abbrev Row := List (String × Cell)

/-- Reading one field of a row: a key that is absent behaves as a missing value
(`NaN`), matching a pandas row viewed through the columns of its frame. -/
def getCell (r : Row) (c : String) : Cell := (r.lookup c).getD Cell.na

structure DataFrame where
  cols : List String
  rows : List Row
deriving DecidableEq

/-- Well-formedness: every key stored in a row is one of the columns of the frame
(pandas rows carry exactly the columns of the frame). -/
def wfDF (df : DataFrame) : Prop := ∀ r ∈ df.rows, ∀ kv ∈ r, kv.1 ∈ df.cols

instance (df : DataFrame) : Decidable (wfDF df) := by
  unfold wfDF; infer_instance

/-- Numeric coercion used by the source via the
`.fillna(0).apply(pd.to_numeric, errors="coerce").fillna(0)` chains: numeric
content is kept, missing and non-numeric content becomes `0`. -/
def toNum (c : Cell) : ℚ :=
  match c with
  | .num q => q
  | _ => 0

/-- Model of `Series.fillna(0)` on one cell: only missing values are replaced
by `0`; non-numeric text is kept as is. -/
def fillZero (c : Cell) : Cell :=
  match c with
  | .na => Cell.num 0
  | c => c

def isNumCell (c : Cell) : Bool :=
  match c with
  | .num _ => true
  | _ => false

/-- Model of `Series.sum()` over already-`fillna(0)`-ed cells: it yields a
number exactly when every cell is numeric; if non-numeric text remains the
reduction does not produce a number (string concatenation or `TypeError`),
modelled as `none`. -/
def pandasSum (l : List Cell) : Option ℚ :=
  if l.all isNumCell then some ((l.map toNum).sum) else none

/-! ### Metrics Calculator: `compute_team_stats` (source lines 65-97) -/

structure TeamStats where
  ltp : ℚ
  buffer : ℚ
  ytd_spend : ℚ
  base_limit : ℚ
  over_vs_base : ℚ
  remaining_ltp : ℚ
  consumed_buffer : ℚ
  remaining_buffer : ℚ
  ytg_total : ℚ
deriving DecidableEq

def compute_team_stats (ltp : ℚ) (buffer : ℚ) (ytd_spend : ℚ) : TeamStats :=
  let base_limit := ltp - buffer
  let over_vs_base := ytd_spend - base_limit
  let remaining_ltp := max (ltp - ytd_spend) 0
  let consumed_buffer := max (ytd_spend - ltp) 0
  let remaining_buffer := max (buffer - consumed_buffer) 0
  let ytg_total := max (ltp + buffer - ytd_spend) 0
  { ltp := ltp
    buffer := buffer
    ytd_spend := ytd_spend
    base_limit := base_limit
    over_vs_base := over_vs_base
    remaining_ltp := remaining_ltp
    consumed_buffer := consumed_buffer
    remaining_buffer := remaining_buffer
    ytg_total := ytg_total }

/-! ### Table Loader: `load_flowplan_dataframe` (source lines 10-42)

The external `pd.read_excel` call is outside the modelled scope (spec section 1
excludes spreadsheet file reading); the loader is modelled as a function of the
already-parsed table. Missing label columns raise a KeyError and an empty frame
raises an IndexError at `df.iloc[0]`, modelled as `none`; the model covers the
case where every month-label cell is textual (renaming to non-textual labels
falls outside the `String`-labelled column model). -/

def month_cols_original : List String :=
  ["Q1", "Unnamed: 8", "Unnamed: 9", "Q2", "Unnamed: 11", "Unnamed: 12",
   "Q3", "Unnamed: 14", "Unnamed: 15", "Q4", "Unnamed: 17", "Unnamed: 18"]

def cellText (c : Cell) : Option String :=
  match c with
  | .str s => some s
  | _ => none

def renameRow (rename_map : List (String × String)) (r : Row) : Row :=
  r.map (fun kv => ((rename_map.lookup kv.1).getD kv.1, kv.2))

def load_flowplan_dataframe (df : DataFrame) : Option DataFrame :=
  match df.rows with
  | [] => none
  | r0 :: rest =>
    if month_cols_original.all (fun c => decide (c ∈ df.cols)) then
      match (month_cols_original.map (fun c => getCell r0 c)).mapM cellText with
      | none => none
      | some month_names =>
        let rename_map := month_cols_original.zip month_names
        some ⟨df.cols.map (fun c => (rename_map.lookup c).getD c),
              rest.map (renameRow rename_map)⟩
    else none

/-! ### Spend Aggregator, team part: `compute_ytd_by_team` (source lines 100-123) -/

def team_cols : List String := ["Actual", "Unnamed: 20", "CAMPAIGN", "Media"]

/-- Model of `df[col] = 0` guarded by `if col not in df.columns` — the in-place
addition of a zero-filled column. -/
def addCol (d : DataFrame) (c : String) : DataFrame :=
  if c ∈ d.cols then d
  else ⟨d.cols ++ [c], d.rows.map (fun r => r ++ [(c, Cell.num 0)])⟩

def ensureTeamCols (d : DataFrame) : DataFrame := team_cols.foldl addCol d

def compute_ytd_by_team (df : DataFrame) : DataFrame × Option ℚ × Option ℚ :=
  let df2 := ensureTeamCols df
  let campaign_rows := df2.rows.filter
    (fun r => decide (getCell r "CAMPAIGN" ≠ Cell.na) && decide (getCell r "Media" = Cell.na))
  (df2,
   pandasSum (campaign_rows.map (fun r => fillZero (getCell r "Actual"))),
   pandasSum (campaign_rows.map (fun r => fillZero (getCell r "Unnamed: 20"))))

/-- In `main` (source lines 259-266) the very DataFrame object mutated by
`compute_ytd_by_team` is later handed to `compute_channel_spend`; with mutation
modelled as state passing, the table the channel stage receives is the first
component returned by `compute_ytd_by_team`. -/
def main_channel_stage_input (flow : DataFrame) : DataFrame :=
  (compute_ytd_by_team flow).1

/-! ### Spend Aggregator, channel part: `compute_channel_spend` (source lines 126-177) -/

def month_order : List String :=
  ["Jan", "Feb", "Mar", "Apr", "May", "Jun", "Jul", "Aug", "Sep", "Oct", "Nov", "Dec"]

/-- Python list slicing `l[:n]`, including negative `n`. -/
def pyTake (l : List String) (n : Int) : List String :=
  if n < 0 then l.take (l.length - (-n).toNat) else l.take n.toNat

/-- Python list indexing `l[i]`, including negative `i`; `none` is an
IndexError. -/
def pyIndex (l : List String) (i : Int) : Option String :=
  if i < 0 then
    if (-i).toNat ≤ l.length then l[(l.length - (-i).toNat)]? else none
  else l[(i.toNat)]?

/-- Model of the loop `for m in month_order: if m not in channel_rows.columns:
channel_rows[m] = 0.0` as it acts on one row of the working copy. -/
def ensureRow (cols : List String) (r : Row) : Row :=
  r ++ (month_order.filter (fun m => decide (m ∉ cols))).map (fun m => (m, Cell.num 0))

def rowYTD (active : List String) (r : Row) : ℚ :=
  (active.map (fun m => toNum (getCell r m))).sum

/-- Distinct group keys in order of first appearance. (pandas `groupby` sorts
its keys; no claim depends on the order of the aggregate rows, and the Summary
Writer re-sorts them, so the model keeps first-appearance order.) -/
def dedupFirst (l : List Cell) : List Cell :=
  l.foldl (fun acc c => if c ∈ acc then acc else acc ++ [c]) []

/-- The grouped aggregation of the channel-detail rows: one row per distinct
`Media` value carrying the summed YTD and current-month figures. -/
def aggregate (df : DataFrame) (active : List String) (current_month_name : String) :
    List (Cell × ℚ × ℚ) :=
  let channel_rows :=
    (df.rows.filter (fun r => decide (getCell r "Media" ≠ Cell.na))).map (ensureRow df.cols)
  let keyed := channel_rows.map
    (fun r => (getCell r "Media", rowYTD active r, toNum (getCell r current_month_name)))
  (dedupFirst (keyed.map (fun t => t.1))).map
    (fun k =>
      (k, ((keyed.filter (fun t => decide (t.1 = k))).map (fun t => t.2.1)).sum,
          ((keyed.filter (fun t => decide (t.1 = k))).map (fun t => t.2.2)).sum))

def compute_channel_spend (df : DataFrame) (current_month : Int) :
    Option (List (Cell × ℚ × ℚ)) :=
  let active := pyTake month_order current_month
  match pyIndex month_order (current_month - 1) with
  | none => none
  | some current_month_name =>
    if "Media" ∈ df.cols then some (aggregate df active current_month_name) else none

/-! ### Summary Writer: `write_automated_summary` (source lines 180-246) -/

abbrev Sheet := List (String × Cell)

abbrev Workbook := List (String × Sheet)

/-- Byte-wise comparison of channel names, the order used by
`sort_values("Media")` on plain text labels. -/
def charListLt : List Char → List Char → Bool
  | [], [] => false
  | [], _ :: _ => true
  | _ :: _, [] => false
  | a :: as, b :: bs => if a = b then charListLt as bs else decide (a.val < b.val)

def insertSorted (x : String × ℚ × ℚ) : List (String × ℚ × ℚ) → List (String × ℚ × ℚ)
  | [] => [x]
  | y :: rest =>
    if x.1 == y.1 || charListLt x.1.data y.1.data then x :: y :: rest
    else y :: insertSorted x rest

def sortChannels (l : List (String × ℚ × ℚ)) : List (String × ℚ × ℚ) :=
  l.foldr insertSorted []

def header_row : Sheet :=
  [("A1", Cell.str "Team"), ("B1", Cell.str "LTP"), ("C1", Cell.str "Buffer"),
   ("D1", Cell.str "YTD Spend"), ("E1", Cell.str "Base limit (LTP - buffer)"),
   ("F1", Cell.str "Over/(under) vs base"), ("G1", Cell.str "Remaining LTP"),
   ("H1", Cell.str "Consumed buffer"), ("I1", Cell.str "Remaining buffer"),
   ("J1", Cell.str "YTG total (LTP + buffer - YTD)")]

def team_row (rowIdx : Nat) (name : String) (stats : TeamStats) : Sheet :=
  [("A" ++ toString rowIdx, Cell.str name),
   ("B" ++ toString rowIdx, Cell.num stats.ltp),
   ("C" ++ toString rowIdx, Cell.num stats.buffer),
   ("D" ++ toString rowIdx, Cell.num stats.ytd_spend),
   ("E" ++ toString rowIdx, Cell.num stats.base_limit),
   ("F" ++ toString rowIdx, Cell.num stats.over_vs_base),
   ("G" ++ toString rowIdx, Cell.num stats.remaining_ltp),
   ("H" ++ toString rowIdx, Cell.num stats.consumed_buffer),
   ("I" ++ toString rowIdx, Cell.num stats.remaining_buffer),
   ("J" ++ toString rowIdx, Cell.num stats.ytg_total)]

def channel_section (per_channel : List (String × ℚ × ℚ)) (current_month : Int) : Sheet :=
  [("A5", Cell.str ("Channel spend (current month = " ++ toString current_month ++ ")")),
   ("A6", Cell.str "Channel"), ("B6", Cell.str "Spend YTD"),
   ("C6", Cell.str "Spend current month")] ++
  ((sortChannels per_channel).enum.map
    (fun p =>
      [("A" ++ toString (7 + p.1), Cell.str p.2.1),
       ("B" ++ toString (7 + p.1), Cell.num p.2.2.1),
       ("C" ++ toString (7 + p.1), Cell.num p.2.2.2)])).flatten

def summary_sheet (marcom_stats dm_stats : TeamStats)
    (per_channel : List (String × ℚ × ℚ)) (current_month : Int) : Sheet :=
  header_row ++ team_row 2 "MarCom" marcom_stats ++
  team_row 3 "Digital Marketing" dm_stats ++ channel_section per_channel current_month

/-- Python `str.replace` on character lists: every non-overlapping occurrence
of `pat`, scanned left to right, is replaced by `rep`. The first argument is
fuel, instantiated with the length of the string (enough for full traversal). -/
def replaceAllAux : Nat → List Char → List Char → List Char → List Char
  | 0, s, _, _ => s
  | Nat.succ _, [], _, _ => []
  | Nat.succ n, c :: rest, pat, rep =>
    if !pat.isEmpty && pat.isPrefixOf (c :: rest) then
      rep ++ replaceAllAux n ((c :: rest).drop pat.length) pat rep
    else c :: replaceAllAux n rest pat rep

def replaceAll (s pat rep : List Char) : List Char := replaceAllAux s.length s pat rep

def pyReplace (s pat rep : String) : String :=
  String.mk (replaceAll s.data pat.data rep.data)

/-- The derived output path: `file_path.replace(".xlsx", "_automated.xlsx")`
(source line 244). -/
def out_path (file_path : String) : String :=
  pyReplace file_path ".xlsx" "_automated.xlsx"

/-- Model of `write_automated_summary`: the workbook loaded from `file_path` is
passed in; the result is the path handed to `wb.save` together with the
workbook content written there. -/
def write_automated_summary (file_path : String) (marcom_stats dm_stats : TeamStats)
    (per_channel : List (String × ℚ × ℚ)) (current_month : Int) (wb : Workbook) :
    String × Workbook :=
  let wb1 :=
    if "Automated Summary" ∈ wb.map Prod.fst then
      wb.eraseP (fun s => s.1 == "Automated Summary")
    else wb
  (out_path file_path,
   wb1 ++ [("Automated Summary", summary_sheet marcom_stats dm_stats per_channel current_month)])

/-! ### Statements taken from the wording of the spec -/

/-- YTD of channel `k` as the spec words it: the sum of month columns
`Jan..month[M]` inclusive over the rows of that channel, non-numeric coerced to
zero (a month column absent from the table reads as missing, hence zero). -/
def specYTD (df : DataFrame) (M : Int) (k : Cell) : ℚ :=
  ((df.rows.filter (fun r => decide (getCell r "Media" = k))).map
    (fun r => ((month_order.take M.toNat).map (fun m => toNum (getCell r m))).sum)).sum

/-- Current-month spend of channel `k` as the spec words it: the sum of the
single `month[M]` column over the rows of that channel, non-numeric coerced to
zero. -/
def specMONTH (df : DataFrame) (M : Int) (k : Cell) : ℚ :=
  ((df.rows.filter (fun r => decide (getCell r "Media" = k))).map
    (fun r => toNum (getCell r ((month_order[(M.toNat - 1)]?).getD "")))).sum

/-- The C3 property: the call succeeds, yields exactly one aggregate row per
distinct channel name of the channel-detail rows, and each row carries the
YTD and current-month sums of the spec. -/
def channelSpendOK (df : DataFrame) (M : Int) : Prop :=
  ∃ out, compute_channel_spend df M = some out ∧
    (out.map (fun e => e.1)).Nodup ∧
    (∀ k, k ∈ out.map (fun e => e.1) ↔
      (k ≠ Cell.na ∧ ∃ r ∈ df.rows, getCell r "Media" = k)) ∧
    (∀ e ∈ out, e.2.1 = specYTD df M e.1 ∧ e.2.2 = specMONTH df M e.1)

/-! ## Theorems -/

/-- C1: `compute_team_stats` is a pure total function returning exactly the
formulas of the spec, and the three clamped metrics are always nonnegative. -/
theorem compute_team_stats_spec (plan buffer ytdSpend : ℚ) :
    (compute_team_stats plan buffer ytdSpend).ltp = plan ∧
    (compute_team_stats plan buffer ytdSpend).buffer = buffer ∧
    (compute_team_stats plan buffer ytdSpend).ytd_spend = ytdSpend ∧
    (compute_team_stats plan buffer ytdSpend).base_limit = plan - buffer ∧
    (compute_team_stats plan buffer ytdSpend).over_vs_base = ytdSpend - (plan - buffer) ∧
    (compute_team_stats plan buffer ytdSpend).remaining_ltp = max (plan - ytdSpend) 0 ∧
    (compute_team_stats plan buffer ytdSpend).consumed_buffer = max (ytdSpend - plan) 0 ∧
    (compute_team_stats plan buffer ytdSpend).remaining_buffer
      = max (buffer - max (ytdSpend - plan) 0) 0 ∧
    (compute_team_stats plan buffer ytdSpend).ytg_total = max (plan + buffer - ytdSpend) 0 ∧
    0 ≤ (compute_team_stats plan buffer ytdSpend).remaining_ltp ∧
    0 ≤ (compute_team_stats plan buffer ytdSpend).remaining_buffer ∧
    0 ≤ (compute_team_stats plan buffer ytdSpend).ytg_total := by
  refine ⟨rfl, rfl, rfl, rfl, rfl, rfl, rfl, rfl, rfl, ?_, ?_, ?_⟩ <;>
    exact le_max_right _ 0

/-- C2 fails as stated: with a negative buffer the split identity breaks even
though `ytdSpend ≤ plan + buffer`. At `(plan, buffer, ytdSpend) = (10, -5, 0)`
we have `0 ≤ 10 + (-5)` but `ytg_total = 5` while
`remaining_ltp + remaining_buffer = 10 + 0 = 10`. -/
theorem ytg_split_counterexample :
    (0 : ℚ) ≤ 10 + (-5) ∧
    ¬ ((compute_team_stats 10 (-5) 0).ytg_total
        = (compute_team_stats 10 (-5) 0).remaining_ltp
          + (compute_team_stats 10 (-5) 0).remaining_buffer) := by
  constructor
  · norm_num
  · unfold compute_team_stats
    dsimp only
    rw [max_eq_left (by norm_num : (0:ℚ) ≤ 10 - 0),
      max_eq_right (by norm_num : (0:ℚ) - 10 ≤ (0:ℚ)),
      max_eq_right (by norm_num : (-5:ℚ) - 0 ≤ (0:ℚ)),
      max_eq_left (by norm_num : (0:ℚ) ≤ 10 + (-5) - 0)]
    norm_num

/-- C2 amended: whenever the buffer is nonnegative and `ytdSpend ≤ plan + buffer`,
`ytg_total = remaining_ltp + remaining_buffer`. -/
theorem ytg_split_of_nonneg_buffer (plan buffer ytdSpend : ℚ)
    (hb : 0 ≤ buffer) (hy : ytdSpend ≤ plan + buffer) :
    (compute_team_stats plan buffer ytdSpend).ytg_total
      = (compute_team_stats plan buffer ytdSpend).remaining_ltp
        + (compute_team_stats plan buffer ytdSpend).remaining_buffer := by
  unfold compute_team_stats
  dsimp only
  rcases le_total ytdSpend plan with h | h
  · rw [max_eq_left (by linarith : (0:ℚ) ≤ plan - ytdSpend),
      max_eq_right (by linarith : ytdSpend - plan ≤ (0:ℚ)),
      max_eq_left (by linarith : (0:ℚ) ≤ buffer - 0),
      max_eq_left (by linarith : (0:ℚ) ≤ plan + buffer - ytdSpend)]
    ring
  · rw [max_eq_right (by linarith : plan - ytdSpend ≤ (0:ℚ)),
      max_eq_left (by linarith : (0:ℚ) ≤ ytdSpend - plan),
      max_eq_left (by linarith : (0:ℚ) ≤ buffer - (ytdSpend - plan)),
      max_eq_left (by linarith : (0:ℚ) ≤ plan + buffer - ytdSpend)]
    ring

/-- Witness for the amended C2 at `(10, 5, 12)`. -/
theorem ytg_split_witness :
    (compute_team_stats 10 5 12).ytg_total
      = (compute_team_stats 10 5 12).remaining_ltp
        + (compute_team_stats 10 5 12).remaining_buffer :=
  ytg_split_of_nonneg_buffer 10 5 12 (by norm_num) (by norm_num)

/-- C9: the unclamped difference identity
`remaining_ltp - consumed_buffer = ltp - ytd_spend` holds for every real input,
at most one of the two clamped values is nonzero, and both vanish exactly when
`ytd_spend = ltp`. -/
theorem remaining_consumed_identity (plan buffer ytdSpend : ℚ) :
    (compute_team_stats plan buffer ytdSpend).remaining_ltp
        - (compute_team_stats plan buffer ytdSpend).consumed_buffer
      = (compute_team_stats plan buffer ytdSpend).ltp
        - (compute_team_stats plan buffer ytdSpend).ytd_spend ∧
    ((compute_team_stats plan buffer ytdSpend).remaining_ltp = 0 ∨
      (compute_team_stats plan buffer ytdSpend).consumed_buffer = 0) ∧
    ((compute_team_stats plan buffer ytdSpend).remaining_ltp = 0 ∧
        (compute_team_stats plan buffer ytdSpend).consumed_buffer = 0 ↔
      ytdSpend = plan) := by
  unfold compute_team_stats
  dsimp only
  rcases le_total ytdSpend plan with h | h
  · rw [max_eq_left (by linarith : (0:ℚ) ≤ plan - ytdSpend),
      max_eq_right (by linarith : ytdSpend - plan ≤ (0:ℚ))]
    refine ⟨by ring, Or.inr rfl, ?_⟩
    constructor
    · rintro ⟨h1, -⟩; linarith
    · rintro rfl; constructor <;> [skip; rfl]; ring
  · rw [max_eq_right (by linarith : plan - ytdSpend ≤ (0:ℚ)),
      max_eq_left (by linarith : (0:ℚ) ≤ ytdSpend - plan)]
    refine ⟨by ring, Or.inl rfl, ?_⟩
    constructor
    · rintro ⟨-, h2⟩; linarith
    · rintro rfl; constructor <;> [rfl; skip]; ring

/-! ### Helper lemmas about association-list lookup -/

lemma getCell_append_some {r : Row} {c : String} {v : Cell}
    (h : r.lookup c = some v) (app : Row) : getCell (r ++ app) c = v := by
  simp [getCell, List.lookup_append, h]

lemma getCell_append_none {r : Row} {c : String}
    (h : r.lookup c = none) (app : Row) : getCell (r ++ app) c = getCell app c := by
  simp [getCell, List.lookup_append, h]

lemma lookup_of_not_mem_keys {β : Type} {l : List (String × β)} {c : String}
    (h : ∀ kv ∈ l, kv.1 ≠ c) : l.lookup c = none :=
  List.lookup_eq_none_iff.mpr (fun p hp => by
    simpa [bne_iff_ne] using (h p hp).symm)

lemma lookup_const_pairs (ms : List String) (c : String) (v : Cell) :
    ((ms.map (fun m => (m, v))).lookup c) = if c ∈ ms then some v else none := by
  induction ms with
  | nil => simp
  | cons m ms ih =>
    by_cases hc : c = m
    · simp [hc, List.lookup_cons]
    · have hb : (c == m) = false := by simp [hc]
      simp [List.lookup_cons, hb, ih, hc]

/-! ### C8: the derived output path -/

lemma replaceAllAux_nil (n : Nat) (pat rep : List Char) :
    replaceAllAux n [] pat rep = [] := by
  cases n <;> rfl

lemma isPrefixOf_self (l : List Char) : l.isPrefixOf l = true := by
  induction l with
  | nil => rfl
  | cons c cs ih => simp [List.isPrefixOf, ih]

lemma replaceAllAux_boundary (pat rep : List Char) (hp : pat ≠ []) :
    ∀ (stem : List Char) (n : Nat), (stem ++ pat).length ≤ n →
      (∀ i, i < stem.length → pat.isPrefixOf ((stem ++ pat).drop i) = false) →
      replaceAllAux n (stem ++ pat) pat rep = stem ++ rep := by
  intro stem
  induction stem with
  | nil =>
    intro n hn hocc
    cases pat with
    | nil => exact absurd rfl hp
    | cons p ps =>
      cases n with
      | zero => simp at hn
      | succ n =>
        show replaceAllAux (n + 1) (p :: ps) (p :: ps) rep = [] ++ rep
        rw [replaceAllAux, if_pos (by simp [isPrefixOf_self])]
        rw [List.drop_length, replaceAllAux_nil, List.append_nil, List.nil_append]
  | cons c st ih =>
    intro n hn hocc
    have h0 : pat.isPrefixOf ((c :: st) ++ pat) = false := by
      have h := hocc 0 (by simp)
      simpa using h
    cases n with
    | zero => simp at hn
    | succ n =>
      show replaceAllAux (n + 1) (c :: (st ++ pat)) pat rep = c :: (st ++ rep)
      rw [replaceAllAux, if_neg (by simp only [List.cons_append] at h0; simp [h0])]
      congr 1
      refine ih n ?_ ?_
      · have := hn
        simp only [List.cons_append, List.length_cons] at this
        omega
      · intro i hi
        have h := hocc (i + 1) (by simpa using Nat.succ_lt_succ hi)
        simpa [List.cons_append] using h

/-- C8 fails as stated: `str.replace(".xlsx", "_automated.xlsx")` leaves a path
that does not contain `".xlsx"` unchanged, so `wb.save` targets the input path
itself. A workbook named `budget.xlsm` (loadable by the workbook library) is
saved over the original. -/
theorem out_path_counterexample :
    (write_automated_summary "budget.xlsm" (compute_team_stats 0 0 0)
      (compute_team_stats 0 0 0) [] 11 []).1 = "budget.xlsm" := by
  decide

/-- C8 amended: for an input path that ends in `".xlsx"` and contains no other
occurrence of `".xlsx"`, the output path inserts `_automated` before the
extension and differs from the input path; the derived path equals the input
path whenever `".xlsx"` does not occur in it. -/
theorem out_path_spec (stem : List Char)
    (hocc : ∀ i, i < stem.length →
      (".xlsx".data).isPrefixOf ((stem ++ ".xlsx".data).drop i) = false) :
    out_path (String.mk (stem ++ ".xlsx".data)) = String.mk (stem ++ "_automated.xlsx".data) ∧
    out_path (String.mk (stem ++ ".xlsx".data)) ≠ String.mk (stem ++ ".xlsx".data) := by
  have hmain : replaceAll (stem ++ ".xlsx".data) ".xlsx".data "_automated.xlsx".data
      = stem ++ "_automated.xlsx".data :=
    replaceAllAux_boundary _ _ (by decide) stem _ le_rfl hocc
  constructor
  · show String.mk (replaceAll (stem ++ ".xlsx".data) ".xlsx".data "_automated.xlsx".data)
      = String.mk (stem ++ "_automated.xlsx".data)
    rw [hmain]
  · intro h
    rw [show out_path (String.mk (stem ++ ".xlsx".data))
        = String.mk (replaceAll (stem ++ ".xlsx".data) ".xlsx".data "_automated.xlsx".data)
      from rfl, hmain] at h
    have hlen := congrArg (fun s : String => s.data.length) h
    simp [List.length_append] at hlen

/-- Witness for the amended C8 at the path `budget.xlsx`. -/
theorem out_path_witness :
    out_path (String.mk ("budget".data ++ ".xlsx".data))
        = String.mk ("budget".data ++ "_automated.xlsx".data) ∧
    out_path (String.mk ("budget".data ++ ".xlsx".data))
        ≠ String.mk ("budget".data ++ ".xlsx".data) :=
  out_path_spec "budget".data (by decide)

/-! ### C7: the Summary Writer replaces the summary sheet -/

lemma not_mem_eraseP_of_count_le_one (n : String) :
    ∀ wb : Workbook, (wb.map Prod.fst).count n ≤ 1 →
      n ∉ (wb.eraseP (fun s => s.1 == n)).map Prod.fst := by
  intro wb
  induction wb with
  | nil => intro _; simp
  | cons x rest ih =>
    intro h
    by_cases hx : x.1 = n
    · rw [List.eraseP_cons_of_pos (by simp [hx])]
      have hc : (rest.map Prod.fst).count n = 0 := by
        simp only [List.map_cons, List.count_cons, hx] at h
        simp at h
        omega
      exact List.count_eq_zero.mp hc
    · rw [List.eraseP_cons_of_neg (by simp [hx])]
      have h' : (rest.map Prod.fst).count n ≤ 1 := by
        simp only [List.map_cons, List.count_cons] at h
        omega
      intro hmem
      rw [List.map_cons] at hmem
      rcases List.mem_cons.mp hmem with h1 | h1
      · exact hx h1.symm
      · exact ih h' h1

lemma eraseP_append_of_none {β : Type} (n : String) (l₁ l₂ : List (String × β))
    (h : n ∉ l₁.map Prod.fst) :
    (l₁ ++ l₂).eraseP (fun s => s.1 == n) = l₁ ++ l₂.eraseP (fun s => s.1 == n) := by
  induction l₁ with
  | nil => simp
  | cons x rest ih =>
    have hx : ¬ x.1 = n := by
      intro hc; exact h (by simp [hc])
    rw [List.cons_append, List.eraseP_cons_of_neg (by simp [hx]), List.cons_append,
      ih (fun hc => h (by simp; right; simpa using hc))]

lemma lookup_keys_none {β : Type} {l : List (String × β)} {n : String}
    (h : n ∉ l.map Prod.fst) : l.lookup n = none :=
  List.lookup_eq_none_iff.mpr (fun p hp => by
    have : p.1 ≠ n := fun hc => h (by simpa [hc] using List.mem_map_of_mem Prod.fst hp)
    simpa [bne_iff_ne] using this.symm)

/-- C7: the Summary Writer is idempotent. If the sheet names of the workbook are
unique (as the workbook library guarantees), one application yields exactly one
"Automated Summary" sheet whose content is fully determined by the inputs —
any pre-existing sheet of that name is discarded, not merged — and a second
application on the result is the identity. -/
theorem write_summary_idempotent (fp : String) (ms ds : TeamStats)
    (pc : List (String × ℚ × ℚ)) (M : Int) (wb : Workbook)
    (h : (wb.map Prod.fst).count "Automated Summary" ≤ 1) :
    (write_automated_summary fp ms ds pc M
        (write_automated_summary fp ms ds pc M wb).2).2
      = (write_automated_summary fp ms ds pc M wb).2 ∧
    ((write_automated_summary fp ms ds pc M wb).2).lookup "Automated Summary"
      = some (summary_sheet ms ds pc M) ∧
    (((write_automated_summary fp ms ds pc M wb).2).map Prod.fst).count "Automated Summary"
      = 1 := by
  have hstep : ∃ wb1 : Workbook,
      (write_automated_summary fp ms ds pc M wb).2
        = wb1 ++ [("Automated Summary", summary_sheet ms ds pc M)] ∧
      "Automated Summary" ∉ wb1.map Prod.fst := by
    by_cases hmem : "Automated Summary" ∈ wb.map Prod.fst
    · exact ⟨wb.eraseP (fun s => s.1 == "Automated Summary"),
        by simp only [write_automated_summary, if_pos hmem],
        not_mem_eraseP_of_count_le_one _ wb h⟩
    · exact ⟨wb, by simp only [write_automated_summary, if_neg hmem], hmem⟩
  obtain ⟨wb1, hw, hn⟩ := hstep
  refine ⟨?_, ?_, ?_⟩
  · rw [hw]
    have hmem2 : "Automated Summary"
        ∈ (wb1 ++ [("Automated Summary", summary_sheet ms ds pc M)]).map Prod.fst := by
      simp
    simp only [write_automated_summary, if_pos hmem2]
    rw [eraseP_append_of_none _ _ _ hn]
    rw [List.eraseP_cons_of_pos (by simp)]
    simp
  · rw [hw, List.lookup_append, lookup_keys_none hn]
    simp [List.lookup_cons]
  · rw [hw]
    simp only [List.map_append, List.count_append]
    rw [List.count_eq_zero.mpr hn]
    simp

/-- Witness for C7 on a workbook that already contains a stale summary sheet. -/
theorem write_summary_idempotent_witness :
    (write_automated_summary "b.xlsx" (compute_team_stats 1 2 3) (compute_team_stats 4 5 6)
        [] 11 (write_automated_summary "b.xlsx" (compute_team_stats 1 2 3)
          (compute_team_stats 4 5 6) [] 11
          [("Data", []), ("Automated Summary", [("A1", Cell.str "stale")])]).2).2
      = (write_automated_summary "b.xlsx" (compute_team_stats 1 2 3) (compute_team_stats 4 5 6)
          [] 11 [("Data", []), ("Automated Summary", [("A1", Cell.str "stale")])]).2 ∧
    ((write_automated_summary "b.xlsx" (compute_team_stats 1 2 3) (compute_team_stats 4 5 6)
        [] 11 [("Data", []), ("Automated Summary", [("A1", Cell.str "stale")])]).2).lookup
        "Automated Summary"
      = some (summary_sheet (compute_team_stats 1 2 3) (compute_team_stats 4 5 6) [] 11) ∧
    (((write_automated_summary "b.xlsx" (compute_team_stats 1 2 3) (compute_team_stats 4 5 6)
        [] 11 [("Data", []), ("Automated Summary", [("A1", Cell.str "stale")])]).2).map
        Prod.fst).count "Automated Summary" = 1 :=
  write_summary_idempotent "b.xlsx" (compute_team_stats 1 2 3) (compute_team_stats 4 5 6)
    [] 11 [("Data", []), ("Automated Summary", [("A1", Cell.str "stale")])] (by decide)

/-! ### Synthesized month columns inside the channel stage -/

lemma row_lookup_none_of_wf {cols : List String} {r : Row} {c : String}
    (hnc : c ∉ cols) (hr : ∀ kv ∈ r, kv.1 ∈ cols) : r.lookup c = none :=
  lookup_of_not_mem_keys (fun kv hkv hc => hnc (hc ▸ hr kv hkv))

lemma getCell_ensureRow_of_mem (cols : List String) (r : Row) (c : String)
    (hc : c ∈ cols) : getCell (ensureRow cols r) c = getCell r c := by
  unfold ensureRow
  cases hl : r.lookup c with
  | some v => rw [getCell_append_some hl]; simp [getCell, hl]
  | none =>
    rw [getCell_append_none hl]
    have hno : c ∉ month_order.filter (fun m => decide (m ∉ cols)) := by
      intro hmem
      rcases List.mem_filter.mp hmem with ⟨-, hd⟩
      rw [decide_eq_true_iff] at hd
      exact hd hc
    have hlook : ((month_order.filter (fun m => decide (m ∉ cols))).map
        (fun m => (m, Cell.num 0))).lookup c = none := by
      rw [lookup_const_pairs, if_neg hno]
    unfold getCell
    rw [hlook, hl]

lemma getCell_ensureRow_synth (cols : List String) (r : Row) (m : String)
    (hm : m ∈ month_order) (hnc : m ∉ cols) (hr : ∀ kv ∈ r, kv.1 ∈ cols) :
    getCell (ensureRow cols r) m = Cell.num 0 := by
  unfold ensureRow
  rw [getCell_append_none (row_lookup_none_of_wf hnc hr)]
  have hmem : m ∈ month_order.filter (fun m => decide (m ∉ cols)) :=
    List.mem_filter.mpr ⟨hm, by simpa using hnc⟩
  have hlook : ((month_order.filter (fun m => decide (m ∉ cols))).map
      (fun m => (m, Cell.num 0))).lookup m = some (Cell.num 0) := by
    rw [lookup_const_pairs, if_pos hmem]
  unfold getCell
  rw [hlook]
  rfl

lemma toNum_getCell_ensureRow (cols : List String) (r : Row) (m : String)
    (hm : m ∈ month_order) (hr : ∀ kv ∈ r, kv.1 ∈ cols) :
    toNum (getCell (ensureRow cols r) m) = toNum (getCell r m) := by
  by_cases hc : m ∈ cols
  · rw [getCell_ensureRow_of_mem cols r m hc]
  · rw [getCell_ensureRow_synth cols r m hm hc hr]
    rw [show getCell r m = Cell.na by simp [getCell, row_lookup_none_of_wf hc hr]]
    rfl

/-! ### C5: where the month columns really get synthesized -/

lemma loader_preserves_col_count (df out : DataFrame)
    (hload : load_flowplan_dataframe df = some out) :
    out.cols.length = df.cols.length := by
  obtain ⟨cols, rows⟩ := df
  cases rows with
  | nil => simp [load_flowplan_dataframe] at hload
  | cons r0 rest =>
    simp only [load_flowplan_dataframe] at hload
    by_cases hc : (month_cols_original.all (fun c => decide (c ∈ cols))) = true
    · rw [if_pos hc] at hload
      cases hmap : (month_cols_original.map (fun c => getCell r0 c)).mapM cellText with
      | none => rw [hmap] at hload; simp at hload
      | some names =>
        rw [hmap] at hload
        dsimp only at hload
        have h2 := Option.some.inj hload
        rw [← h2]
        simp
    · rw [if_neg hc] at hload
      simp at hload

/-- The table used by the C5 counterexample: the twelve fixed quarter columns
are present and the label row names them `M1..M12` rather than `Jan..Dec`. -/
def dfLoaderCE : DataFrame :=
  ⟨month_cols_original,
   [month_cols_original.zip
      (["M1","M2","M3","M4","M5","M6","M7","M8","M9","M10","M11","M12"].map Cell.str),
    [("Q1", Cell.num 1)]]⟩

/-- C5 fails as stated: the Table Loader only renames the twelve fixed columns
to whatever the label row holds and synthesizes nothing; on a source whose
label row does not hold the canonical month names, the loaded table has no
`Jan` column at all. -/
theorem loader_months_counterexample :
    load_flowplan_dataframe dfLoaderCE
      = some ⟨["M1","M2","M3","M4","M5","M6","M7","M8","M9","M10","M11","M12"],
              [[("M1", Cell.num 1)]]⟩ ∧
    "Jan" ∉ (["M1","M2","M3","M4","M5","M6","M7","M8","M9","M10","M11","M12"] : List String) := by
  decide

/-- C5 amended: month columns are guaranteed present not by the loader — which
only renames and never changes the number of columns — but inside
`compute_channel_spend`, whose column-ensuring step gives every month column
absent from the table the value zero on each channel row. -/
theorem month_synthesis_spec (cols : List String) (r : Row) (m : String)
    (hm : m ∈ month_order) (hnc : m ∉ cols) (hr : ∀ kv ∈ r, kv.1 ∈ cols)
    (df out : DataFrame) (hload : load_flowplan_dataframe df = some out) :
    getCell (ensureRow cols r) m = Cell.num 0 ∧ out.cols.length = df.cols.length :=
  ⟨getCell_ensureRow_synth cols r m hm hnc hr, loader_preserves_col_count df out hload⟩

/-- Witness for the amended C5: a concrete synthesized `Jan` value and a
concrete loader run. -/
theorem month_synthesis_witness :
    getCell (ensureRow ["Media"] [("Media", Cell.str "TV")]) "Jan" = Cell.num 0 ∧
    (DataFrame.mk ["M1","M2","M3","M4","M5","M6","M7","M8","M9","M10","M11","M12"]
      [[("M1", Cell.num 1)]]).cols.length = dfLoaderCE.cols.length :=
  month_synthesis_spec ["Media"] [("Media", Cell.str "TV")] "Jan"
    (by decide) (by decide) (by decide) dfLoaderCE _ (by decide)

/-! ### C10: the in-place column additions of `compute_ytd_by_team` -/

lemma addCol_cols_subset (d : DataFrame) (c : String) : d.cols ⊆ (addCol d c).cols := by
  unfold addCol
  by_cases h : c ∈ d.cols
  · rw [if_pos h]; exact List.Subset.refl _
  · rw [if_neg h]; exact List.subset_append_left _ _

lemma foldl_addCol_cols_subset :
    ∀ (cs : List String) (d : DataFrame), d.cols ⊆ (cs.foldl addCol d).cols := by
  intro cs
  induction cs with
  | nil => intro d; exact fun x hx => hx
  | cons c cs ih => intro d; exact (addCol_cols_subset d c).trans (ih (addCol d c))

lemma mem_foldl_addCol_cols :
    ∀ (cs : List String) (d : DataFrame) (c : String), c ∈ cs →
      c ∈ (cs.foldl addCol d).cols := by
  intro cs
  induction cs with
  | nil => intro d c hc; exact absurd hc (by simp)
  | cons x cs ih =>
    intro d c hc
    rw [List.foldl_cons]
    rcases List.mem_cons.mp hc with rfl | hc
    · refine foldl_addCol_cols_subset cs (addCol d c) ?_
      unfold addCol
      by_cases h : c ∈ d.cols
      · rw [if_pos h]; exact h
      · rw [if_neg h]; exact List.mem_append_right _ (by simp)
    · exact ih _ _ hc

lemma addCol_wf {d : DataFrame} (hwf : wfDF d) (c : String) : wfDF (addCol d c) := by
  unfold addCol
  by_cases h : c ∈ d.cols
  · rw [if_pos h]; exact hwf
  · rw [if_neg h]
    intro r hr kv hkv
    rcases List.mem_map.mp hr with ⟨r', hr', rfl⟩
    rcases List.mem_append.mp hkv with h1 | h1
    · exact List.mem_append_left _ (hwf r' hr' kv h1)
    · simp only [List.mem_singleton] at h1
      rw [h1]
      exact List.mem_append_right _ (by simp)

lemma addCol_establishes {d : DataFrame} {c : String} (hwf : wfDF d) (hc : c ∉ d.cols) :
    c ∈ (addCol d c).cols ∧ ∀ r ∈ (addCol d c).rows, getCell r c = Cell.num 0 := by
  unfold addCol
  rw [if_neg hc]
  refine ⟨List.mem_append_right _ (by simp), ?_⟩
  intro r hr
  rcases List.mem_map.mp hr with ⟨r', hr', rfl⟩
  rw [getCell_append_none (row_lookup_none_of_wf hc (hwf r' hr'))]
  simp [getCell]

lemma addCol_preserves {d : DataFrame} {c x : String}
    (h : c ∈ d.cols ∧ ∀ r ∈ d.rows, getCell r c = Cell.num 0) :
    c ∈ (addCol d x).cols ∧ ∀ r ∈ (addCol d x).rows, getCell r c = Cell.num 0 := by
  unfold addCol
  by_cases hx : x ∈ d.cols
  · rw [if_pos hx]; exact h
  · rw [if_neg hx]
    refine ⟨List.mem_append_left _ h.1, ?_⟩
    intro r hr
    rcases List.mem_map.mp hr with ⟨r', hr', rfl⟩
    have hval := h.2 r' hr'
    cases hl : r'.lookup c with
    | some v =>
      rw [getCell_append_some hl]
      simpa [getCell, hl] using hval
    | none => simp [getCell, hl] at hval

lemma foldl_addCol_preserves :
    ∀ (cs : List String) (d : DataFrame) (c : String),
      (c ∈ d.cols ∧ ∀ r ∈ d.rows, getCell r c = Cell.num 0) →
      c ∈ (cs.foldl addCol d).cols ∧
        ∀ r ∈ (cs.foldl addCol d).rows, getCell r c = Cell.num 0 := by
  intro cs
  induction cs with
  | nil => intro d c h; exact h
  | cons x cs ih => intro d c h; exact ih (addCol d x) c (addCol_preserves h)

lemma foldl_addCol_zeroes :
    ∀ (cs : List String) (d : DataFrame) (c : String), wfDF d → c ∈ cs → c ∉ d.cols →
      c ∈ (cs.foldl addCol d).cols ∧
        ∀ r ∈ (cs.foldl addCol d).rows, getCell r c = Cell.num 0 := by
  intro cs
  induction cs with
  | nil => intro d c _ hc _; exact absurd hc (by simp)
  | cons x cs ih =>
    intro d c hwf hc hnc
    rw [List.foldl_cons]
    rcases eq_or_ne c x with rfl | hne
    · exact foldl_addCol_preserves cs _ _ (addCol_establishes hwf hnc)
    · rcases List.mem_cons.mp hc with h1 | h1
      · exact absurd h1 hne
      · refine ih (addCol d x) c (addCol_wf hwf x) h1 ?_
        unfold addCol
        by_cases hx : x ∈ d.cols
        · rw [if_pos hx]; exact hnc
        · rw [if_neg hx]
          intro hmem
          rcases List.mem_append.mp hmem with h2 | h2
          · exact hnc h2
          · simp only [List.mem_singleton] at h2
            exact hne h2

/-- C10: `compute_ytd_by_team` adds each absent column of
`["Actual", "Unnamed: 20", "CAMPAIGN", "Media"]` to the table of the caller, filled
with zeros, and later pipeline stages in `main` see the mutated table: the
table the channel stage receives is exactly the ensured one, on which `Media`
is always a column, while the original table without a `Media` column would
make the channel stage fail. -/
theorem ytd_mutation_visible (flow : DataFrame) (hwf : wfDF flow) :
    main_channel_stage_input flow = ensureTeamCols flow ∧
    (∀ c ∈ team_cols, c ∈ (ensureTeamCols flow).cols) ∧
    (∀ c ∈ team_cols, c ∉ flow.cols →
      ∀ r ∈ (ensureTeamCols flow).rows, getCell r c = Cell.num 0) ∧
    (∀ M : Int, "Media" ∉ flow.cols → compute_channel_spend flow M = none) ∧
    "Media" ∈ (ensureTeamCols flow).cols := by
  refine ⟨rfl, ?_, ?_, ?_, ?_⟩
  · intro c hc
    exact mem_foldl_addCol_cols team_cols flow c hc
  · intro c hc hnc r hr
    exact (foldl_addCol_zeroes team_cols flow c hwf hc hnc).2 r hr
  · intro M hM
    unfold compute_channel_spend
    rcases pyIndex month_order (M - 1) with _ | cmn
    · rfl
    · simp [hM]
  · exact mem_foldl_addCol_cols team_cols flow "Media" (by decide)

/-- Witness for C10 on a table that lacks all four columns. -/
theorem ytd_mutation_witness :
    main_channel_stage_input ⟨["X"], [[("X", Cell.str "v")]]⟩
        = ensureTeamCols ⟨["X"], [[("X", Cell.str "v")]]⟩ ∧
    (∀ c ∈ team_cols, c ∈ (ensureTeamCols ⟨["X"], [[("X", Cell.str "v")]]⟩).cols) ∧
    (∀ c ∈ team_cols, c ∉ (DataFrame.mk ["X"] [[("X", Cell.str "v")]]).cols →
      ∀ r ∈ (ensureTeamCols ⟨["X"], [[("X", Cell.str "v")]]⟩).rows,
        getCell r c = Cell.num 0) ∧
    (∀ M : Int, "Media" ∉ (DataFrame.mk ["X"] [[("X", Cell.str "v")]]).cols →
      compute_channel_spend ⟨["X"], [[("X", Cell.str "v")]]⟩ M = none) ∧
    "Media" ∈ (ensureTeamCols ⟨["X"], [[("X", Cell.str "v")]]⟩).cols :=
  ytd_mutation_visible ⟨["X"], [[("X", Cell.str "v")]]⟩ (by decide)

/-! ### C4: team YTD sums -/

lemma toNum_fillZero (c : Cell) : toNum (fillZero c) = toNum c := by
  cases c <;> rfl

lemma pandasSum_of_numeric (l : List Cell) (h : ∀ c ∈ l, isNumCell c = true) :
    pandasSum l = some ((l.map toNum).sum) := by
  unfold pandasSum
  rw [if_pos (List.all_eq_true.mpr h)]

/-- The table of the C4 counterexample: one campaign-summary row whose `Actual`
cell holds non-numeric text. -/
def dfTeamCE : DataFrame :=
  ⟨["CAMPAIGN", "Media", "Actual", "Unnamed: 20"],
   [[("CAMPAIGN", Cell.str "Camp1"), ("Actual", Cell.str "tbd")]]⟩

/-- C4 fails as stated: `compute_ytd_by_team` only fills missing values with
zero (`fillna(0)`); a non-numeric `Actual` cell is not coerced to zero — the
reduction does not produce the claimed number at all (string concatenation or
`TypeError` in the source, `none` in the model) instead of treating the cell
as zero, which would give the sum `0`. -/
theorem ytd_by_team_counterexample :
    (compute_ytd_by_team dfTeamCE).2.1 = none ∧
    (compute_ytd_by_team dfTeamCE).2.1 ≠ some 0 := by
  constructor
  · decide
  · decide

/-- C4 amended: `compute_ytd_by_team` selects exactly the campaign-summary
rows (campaign field non-empty, channel field empty) of the ensured table and
returns the sums of the `Actual` and `Unnamed: 20` columns over those rows
with missing values treated as zero — provided every value in those columns
over those rows is numeric or missing; non-numeric values are not coerced. -/
theorem ytd_by_team_numeric_spec (df : DataFrame)
    (hnum : ∀ r ∈ (ensureTeamCols df).rows,
      (decide (getCell r "CAMPAIGN" ≠ Cell.na) && decide (getCell r "Media" = Cell.na)) = true →
      isNumCell (fillZero (getCell r "Actual")) = true ∧
      isNumCell (fillZero (getCell r "Unnamed: 20")) = true) :
    (compute_ytd_by_team df).2.1
      = some ((((ensureTeamCols df).rows.filter
          (fun r => decide (getCell r "CAMPAIGN" ≠ Cell.na)
            && decide (getCell r "Media" = Cell.na))).map
          (fun r => toNum (getCell r "Actual"))).sum) ∧
    (compute_ytd_by_team df).2.2
      = some ((((ensureTeamCols df).rows.filter
          (fun r => decide (getCell r "CAMPAIGN" ≠ Cell.na)
            && decide (getCell r "Media" = Cell.na))).map
          (fun r => toNum (getCell r "Unnamed: 20"))).sum) := by
  constructor
  · rw [show (compute_ytd_by_team df).2.1
        = pandasSum (((ensureTeamCols df).rows.filter
            (fun r => decide (getCell r "CAMPAIGN" ≠ Cell.na)
              && decide (getCell r "Media" = Cell.na))).map
            (fun r => fillZero (getCell r "Actual"))) from rfl]
    rw [pandasSum_of_numeric _ (by
      intro c hc
      rcases List.mem_map.mp hc with ⟨r, hr, rfl⟩
      exact (hnum r (List.mem_filter.mp hr).1 (List.mem_filter.mp hr).2).1)]
    rw [List.map_map]
    exact congrArg _ (congrArg _ (List.map_congr_left (fun r _ => toNum_fillZero _)))
  · rw [show (compute_ytd_by_team df).2.2
        = pandasSum (((ensureTeamCols df).rows.filter
            (fun r => decide (getCell r "CAMPAIGN" ≠ Cell.na)
              && decide (getCell r "Media" = Cell.na))).map
            (fun r => fillZero (getCell r "Unnamed: 20"))) from rfl]
    rw [pandasSum_of_numeric _ (by
      intro c hc
      rcases List.mem_map.mp hc with ⟨r, hr, rfl⟩
      exact (hnum r (List.mem_filter.mp hr).1 (List.mem_filter.mp hr).2).2)]
    rw [List.map_map]
    exact congrArg _ (congrArg _ (List.map_congr_left (fun r _ => toNum_fillZero _)))

/-- The table of the C4 witness: one campaign-summary row with numeric values
and one channel-detail row (excluded from the team sums). -/
def dfTeamW : DataFrame :=
  ⟨["CAMPAIGN", "Media", "Actual", "Unnamed: 20"],
   [[("CAMPAIGN", Cell.str "Camp1"), ("Actual", Cell.num 5), ("Unnamed: 20", Cell.num 7)],
    [("Media", Cell.str "TV"), ("Actual", Cell.str "not a number")]]⟩

/-- Witness for the amended C4. -/
theorem ytd_by_team_numeric_witness :
    (compute_ytd_by_team dfTeamW).2.1
      = some ((((ensureTeamCols dfTeamW).rows.filter
          (fun r => decide (getCell r "CAMPAIGN" ≠ Cell.na)
            && decide (getCell r "Media" = Cell.na))).map
          (fun r => toNum (getCell r "Actual"))).sum) ∧
    (compute_ytd_by_team dfTeamW).2.2
      = some ((((ensureTeamCols dfTeamW).rows.filter
          (fun r => decide (getCell r "CAMPAIGN" ≠ Cell.na)
            && decide (getCell r "Media" = Cell.na))).map
          (fun r => toNum (getCell r "Unnamed: 20"))).sum) :=
  ytd_by_team_numeric_spec dfTeamW (by decide)

/-! ### C3 and C6: the channel aggregation -/

lemma mem_foldl_dedup (x : Cell) :
    ∀ (l acc : List Cell),
      x ∈ l.foldl (fun acc c => if c ∈ acc then acc else acc ++ [c]) acc ↔
        x ∈ acc ∨ x ∈ l := by
  intro l
  induction l with
  | nil => intro acc; simp
  | cons c l ih =>
    intro acc
    rw [List.foldl_cons, ih]
    by_cases hc : c ∈ acc
    · rw [if_pos hc]
      constructor
      · rintro (h | h)
        · exact Or.inl h
        · exact Or.inr (List.mem_cons_of_mem _ h)
      · rintro (h | h)
        · exact Or.inl h
        · rcases List.mem_cons.mp h with rfl | h
          · exact Or.inl hc
          · exact Or.inr h
    · rw [if_neg hc]
      constructor
      · rintro (h | h)
        · rcases List.mem_append.mp h with h1 | h1
          · exact Or.inl h1
          · simp only [List.mem_singleton] at h1
            exact Or.inr (h1 ▸ List.mem_cons_self _ _)
        · exact Or.inr (List.mem_cons_of_mem _ h)
      · rintro (h | h)
        · exact Or.inl (List.mem_append_left _ h)
        · rcases List.mem_cons.mp h with rfl | h2
          · exact Or.inl (List.mem_append_right _ (by simp))
          · exact Or.inr h2

lemma mem_dedupFirst (x : Cell) (l : List Cell) : x ∈ dedupFirst l ↔ x ∈ l := by
  unfold dedupFirst
  rw [mem_foldl_dedup]
  simp

lemma nodup_foldl_dedup :
    ∀ (l acc : List Cell), acc.Nodup →
      (l.foldl (fun acc c => if c ∈ acc then acc else acc ++ [c]) acc).Nodup := by
  intro l
  induction l with
  | nil => intro acc h; exact h
  | cons c l ih =>
    intro acc h
    rw [List.foldl_cons]
    by_cases hc : c ∈ acc
    · rw [if_pos hc]; exact ih acc h
    · rw [if_neg hc]
      refine ih _ ?_
      rw [List.nodup_append]
      exact ⟨h, List.nodup_singleton c, fun a ha hb => by
        simp only [List.mem_singleton] at hb
        exact hc (hb ▸ ha)⟩

lemma nodup_dedupFirst (l : List Cell) : (dedupFirst l).Nodup :=
  nodup_foldl_dedup l [] List.nodup_nil

lemma filter_media_filter (df : DataFrame) (k : Cell) (hk : k ≠ Cell.na) :
    (df.rows.filter (fun r => decide (getCell r "Media" ≠ Cell.na))).filter
        (fun r => decide (getCell r "Media" = k))
      = df.rows.filter (fun r => decide (getCell r "Media" = k)) := by
  rw [List.filter_filter]
  refine List.filter_congr ?_
  intro r _
  by_cases h : getCell r "Media" = k
  · simp [h, hk]
  · simp [h]

lemma grouped_sum_fst (df : DataFrame) (active : List String) (cmn : String)
    (k : Cell) (hk : k ≠ Cell.na) (hMedia : "Media" ∈ df.cols)
    (b : Row → ℚ)
    (hab : ∀ r ∈ df.rows, rowYTD active (ensureRow df.cols r) = b r) :
    (((((df.rows.filter (fun r => decide (getCell r "Media" ≠ Cell.na))).map
          (ensureRow df.cols)).map
        (fun r => (getCell r "Media", rowYTD active r, toNum (getCell r cmn)))).filter
       (fun t => decide (t.1 = k))).map (fun t => t.2.1)).sum
      = ((df.rows.filter (fun r => decide (getCell r "Media" = k))).map b).sum := by
  rw [List.filter_map, List.map_map]
  rw [show ((fun t : Cell × ℚ × ℚ => decide (t.1 = k))
      ∘ (fun r => (getCell r "Media", rowYTD active r, toNum (getCell r cmn))))
      = (fun r => decide (getCell r "Media" = k)) from rfl]
  rw [show ((fun t : Cell × ℚ × ℚ => t.2.1)
      ∘ (fun r => (getCell r "Media", rowYTD active r, toNum (getCell r cmn))))
      = (fun r => rowYTD active r) from rfl]
  rw [List.filter_map]
  rw [show ((fun r => decide (getCell r "Media" = k)) ∘ ensureRow df.cols)
      = (fun r => decide (getCell (ensureRow df.cols r) "Media" = k)) from rfl]
  rw [List.filter_congr (fun r _ => by
    rw [getCell_ensureRow_of_mem df.cols r "Media" hMedia])]
  rw [filter_media_filter df k hk, List.map_map]
  refine congrArg _ (List.map_congr_left ?_)
  intro r hr
  exact hab r (List.mem_filter.mp hr).1

lemma grouped_sum_snd (df : DataFrame) (active : List String) (cmn : String)
    (k : Cell) (hk : k ≠ Cell.na) (hMedia : "Media" ∈ df.cols)
    (b : Row → ℚ)
    (hab : ∀ r ∈ df.rows, toNum (getCell (ensureRow df.cols r) cmn) = b r) :
    (((((df.rows.filter (fun r => decide (getCell r "Media" ≠ Cell.na))).map
          (ensureRow df.cols)).map
        (fun r => (getCell r "Media", rowYTD active r, toNum (getCell r cmn)))).filter
       (fun t => decide (t.1 = k))).map (fun t => t.2.2)).sum
      = ((df.rows.filter (fun r => decide (getCell r "Media" = k))).map b).sum := by
  rw [List.filter_map, List.map_map]
  rw [show ((fun t : Cell × ℚ × ℚ => decide (t.1 = k))
      ∘ (fun r => (getCell r "Media", rowYTD active r, toNum (getCell r cmn))))
      = (fun r => decide (getCell r "Media" = k)) from rfl]
  rw [show ((fun t : Cell × ℚ × ℚ => t.2.2)
      ∘ (fun r => (getCell r "Media", rowYTD active r, toNum (getCell r cmn))))
      = (fun r => toNum (getCell r cmn)) from rfl]
  rw [List.filter_map]
  rw [show ((fun r => decide (getCell r "Media" = k)) ∘ ensureRow df.cols)
      = (fun r => decide (getCell (ensureRow df.cols r) "Media" = k)) from rfl]
  rw [List.filter_congr (fun r _ => by
    rw [getCell_ensureRow_of_mem df.cols r "Media" hMedia])]
  rw [filter_media_filter df k hk, List.map_map]
  refine congrArg _ (List.map_congr_left ?_)
  intro r hr
  exact hab r (List.mem_filter.mp hr).1

lemma keyed_map_fst (df : DataFrame) (active : List String) (cmn : String)
    (hMedia : "Media" ∈ df.cols) :
    ((((df.rows.filter (fun r => decide (getCell r "Media" ≠ Cell.na))).map
        (ensureRow df.cols)).map
      (fun r => (getCell r "Media", rowYTD active r, toNum (getCell r cmn)))).map
        (fun t => t.1))
      = (df.rows.filter (fun r => decide (getCell r "Media" ≠ Cell.na))).map
          (fun r => getCell r "Media") := by
  rw [List.map_map, List.map_map]
  exact List.map_congr_left (fun r _ =>
    getCell_ensureRow_of_mem df.cols r "Media" hMedia)

lemma aggregate_spec (df : DataFrame) (active : List String) (cmn : String)
    (hact : ∀ m ∈ active, m ∈ month_order) (hcmn : cmn ∈ month_order)
    (hMedia : "Media" ∈ df.cols) (hwf : wfDF df) :
    ((aggregate df active cmn).map (fun e => e.1)).Nodup ∧
    (∀ k, k ∈ (aggregate df active cmn).map (fun e => e.1) ↔
      (k ≠ Cell.na ∧ ∃ r ∈ df.rows, getCell r "Media" = k)) ∧
    (∀ e ∈ aggregate df active cmn,
      e.2.1 = ((df.rows.filter (fun r => decide (getCell r "Media" = e.1))).map
        (fun r => (active.map (fun m => toNum (getCell r m))).sum)).sum ∧
      e.2.2 = ((df.rows.filter (fun r => decide (getCell r "Media" = e.1))).map
        (fun r => toNum (getCell r cmn))).sum) := by
  unfold aggregate
  dsimp only
  have hmemkeys : ∀ k : Cell,
      k ∈ dedupFirst (((((df.rows.filter
            (fun r => decide (getCell r "Media" ≠ Cell.na))).map
          (ensureRow df.cols)).map
        (fun r => (getCell r "Media", rowYTD active r, toNum (getCell r cmn)))).map
          (fun t => t.1))) ↔
      (k ≠ Cell.na ∧ ∃ r ∈ df.rows, getCell r "Media" = k) := by
    intro k
    rw [mem_dedupFirst, keyed_map_fst df active cmn hMedia]
    constructor
    · intro h
      rcases List.mem_map.mp h with ⟨r, hr, hmed⟩
      rcases List.mem_filter.mp hr with ⟨hrr, hcond⟩
      rw [decide_eq_true_iff] at hcond
      exact ⟨hmed ▸ hcond, r, hrr, hmed⟩
    · rintro ⟨hk, r, hr, hmed⟩
      exact List.mem_map.mpr ⟨r, List.mem_filter.mpr ⟨hr, by simp [hmed, hk]⟩, hmed⟩
  have hfst : ((List.map
        (fun k => (k,
          (((((df.rows.filter (fun r => decide (getCell r "Media" ≠ Cell.na))).map
                (ensureRow df.cols)).map
              (fun r => (getCell r "Media", rowYTD active r,
                toNum (getCell r cmn)))).filter
             (fun t => decide (t.1 = k))).map (fun t => t.2.1)).sum,
          (((((df.rows.filter (fun r => decide (getCell r "Media" ≠ Cell.na))).map
                (ensureRow df.cols)).map
              (fun r => (getCell r "Media", rowYTD active r,
                toNum (getCell r cmn)))).filter
             (fun t => decide (t.1 = k))).map (fun t => t.2.2)).sum))
        (dedupFirst ((((df.rows.filter
              (fun r => decide (getCell r "Media" ≠ Cell.na))).map
            (ensureRow df.cols)).map
          (fun r => (getCell r "Media", rowYTD active r, toNum (getCell r cmn)))).map
            (fun t => t.1)))).map (fun e => e.1))
      = dedupFirst ((((df.rows.filter
            (fun r => decide (getCell r "Media" ≠ Cell.na))).map
          (ensureRow df.cols)).map
        (fun r => (getCell r "Media", rowYTD active r, toNum (getCell r cmn)))).map
          (fun t => t.1)) := by
    rw [List.map_map]
    exact List.map_id' _
  refine ⟨?_, ?_, ?_⟩
  · rw [hfst]
    exact nodup_dedupFirst _
  · intro k
    rw [hfst]
    exact hmemkeys k
  · intro e he
    rcases List.mem_map.mp he with ⟨k, hkmem, rfl⟩
    have hk : k ≠ Cell.na := ((hmemkeys k).mp hkmem).1
    constructor
    · exact grouped_sum_fst df active cmn k hk hMedia _
        (fun r hr => by
          unfold rowYTD
          exact congrArg _ (List.map_congr_left (fun m hm =>
            toNum_getCell_ensureRow df.cols r m (hact m hm) (hwf r hr))))
    · exact grouped_sum_snd df active cmn k hk hMedia _
        (fun r hr => toNum_getCell_ensureRow df.cols r cmn hcmn (hwf r hr))

lemma compute_channel_spend_eq_of_idx (df : DataFrame) (M : Int) (cmn : String)
    (hidx : pyIndex month_order (M - 1) = some cmn) (hMedia : "Media" ∈ df.cols) :
    compute_channel_spend df M = some (aggregate df (pyTake month_order M) cmn) := by
  unfold compute_channel_spend
  rw [hidx]
  simp only [if_pos hMedia]

lemma channel_case (df : DataFrame) (M : Int) (cmn : String) (active : List String)
    (hpy : pyIndex month_order (M - 1) = some cmn)
    (hTake : pyTake month_order M = active)
    (hact : ∀ m ∈ active, m ∈ month_order)
    (hcmn : cmn ∈ month_order)
    (hTakeSpec : month_order.take M.toNat = active)
    (hIdxSpec : (month_order[(M.toNat - 1)]?).getD "" = cmn)
    (hMedia : "Media" ∈ df.cols) (hwf : wfDF df) :
    channelSpendOK df M := by
  obtain ⟨hnodup, hkeys, hent⟩ := aggregate_spec df active cmn hact hcmn hMedia hwf
  refine ⟨aggregate df active cmn, ?_, hnodup, hkeys, ?_⟩
  · rw [compute_channel_spend_eq_of_idx df M cmn hpy hMedia, hTake]
  · intro e he
    obtain ⟨ha, hb⟩ := hent e he
    constructor
    · rw [ha]
      unfold specYTD
      rw [hTakeSpec]
    · rw [hb]
      unfold specMONTH
      rw [hIdxSpec]

/-- C3: for every table with a `Media` column (well-formed rows) and every
current-month index in `[1, 12]`, `compute_channel_spend` returns exactly one
aggregate row per distinct channel name of the channel-detail rows, whose YTD
value sums the month columns `Jan..month[M]` and whose current-month value
sums the single `month[M]` column over the rows of that channel, non-numeric and
missing cells coerced to zero. -/
theorem compute_channel_spend_ok (df : DataFrame) (M : Int)
    (h1 : 1 ≤ M) (h2 : M ≤ 12) (hMedia : "Media" ∈ df.cols) (hwf : wfDF df) :
    channelSpendOK df M := by
  interval_cases M <;>
    exact channel_case df _ _ _ rfl rfl (by decide) (by decide) rfl rfl hMedia hwf

/-- The table of the C3 witness and spec test 8.3: two channel rows named
DV360 with Jan/Feb values 10/20 and 5/0, at current month 2. -/
def dfChannelW : DataFrame :=
  ⟨["Media", "Jan", "Feb"],
   [[("Media", Cell.str "DV360"), ("Jan", Cell.num 10), ("Feb", Cell.num 20)],
    [("Media", Cell.str "DV360"), ("Jan", Cell.num 5), ("Feb", Cell.num 0)]]⟩

/-- Witness for C3 (current month 2, the boundary month-1 slice included). -/
theorem compute_channel_spend_ok_witness : channelSpendOK dfChannelW 2 :=
  compute_channel_spend_ok dfChannelW 2 (by decide) (by decide) (by decide) (by decide)

/-- The table of the C6 counterexample: one channel row with a December
value. -/
def dfMonthCE : DataFrame :=
  ⟨["Media", "Dec"], [[("Media", Cell.str "TV"), ("Dec", Cell.num 7)]]⟩

/-- C6 fails as stated: at current month 0 — outside `[1, 12]` —
`compute_channel_spend` does not reject; it silently computes on the empty
month slice (`month_order[:0] = []`) while the negative indexing of Python makes
`month_order[-1] = "Dec"` the current month. -/
theorem month_index_zero_counterexample :
    (compute_channel_spend dfMonthCE 0).isSome = true := by
  decide

/-- C6 amended: `compute_channel_spend` performs no range validation. For a
current-month index of 13 or more it fails with an index error (not a
range-validation error), and for index 0 it silently returns a result computed
from an empty active-month slice. -/
theorem month_index_behavior (df : DataFrame) (M : Int) (h13 : 13 ≤ M)
    (hMedia : "Media" ∈ df.cols) :
    compute_channel_spend df M = none ∧
    (compute_channel_spend df 0).isSome = true := by
  constructor
  · unfold compute_channel_spend
    have hidx : pyIndex month_order (M - 1) = none := by
      unfold pyIndex
      rw [if_neg (by omega : ¬ (M - 1 < 0))]
      refine List.getElem?_eq_none ?_
      show month_order.length ≤ (M - 1).toNat
      have h12 : (12 : Nat) ≤ (M - 1).toNat := by omega
      simpa [month_order] using h12
    rw [hidx]
  · rw [compute_channel_spend_eq_of_idx df 0 "Dec" rfl hMedia]
    rfl

/-- Witness for the amended C6 at current month 13. -/
theorem month_index_behavior_witness :
    compute_channel_spend ⟨["Media"], []⟩ 13 = none ∧
    (compute_channel_spend ⟨["Media"], []⟩ 0).isSome = true :=
  month_index_behavior ⟨["Media"], []⟩ 13 (by decide) (by decide)

end BudgetAutomation
